import Mathlib

/-
Shallow embedding of the repository FBB-orchestration, whose single program is
the CI validation script .github/.scripts/validate_acceptance.py.  The script
validates a course-registration pull request: branch name, PR title, presence
of exactly one added YAML file, and the content of that YAML file.  Python
strings are embedded as Lean String / List Char, YAML scalar values as an
inductive type, the outcome of yaml.safe_load and of the git subprocess as
explicit oracle inputs, and a Python unhandled exception as Option.none.
-/

namespace ValidateAcceptance

set_option maxRecDepth 100000

/-- Characters for which Python str.isspace() is true; this is the character
set used by str.strip(), str.rstrip() and no-argument str.split(). -/
def isPySpace (c : Char) : Bool :=
  let n := c.toNat
  (9 ≤ n && n ≤ 13) || (28 ≤ n && n ≤ 32) || n == 133 || n == 160 ||
  n == 0x1680 || (0x2000 ≤ n && n ≤ 0x200a) || n == 0x2028 || n == 0x2029 ||
  n == 0x202f || n == 0x205f || n == 0x3000

/-- Remove trailing characters satisfying isPySpace, as Python str.rstrip(). -/
def stripTrailing : List Char → List Char
  | [] => []
  | c :: cs =>
    match stripTrailing cs with
    | [] => if isPySpace c then [] else [c]
    | r => c :: r

/-- Python str.strip() with no argument: drop leading and trailing
whitespace characters. -/
def pyStripL (l : List Char) : List Char :=
  stripTrailing (l.dropWhile isPySpace)

/-- Python str.strip() at the String level. -/
def pyStrip (s : String) : String :=
  ⟨pyStripL s.data⟩

/-- Line-boundary characters of Python str.splitlines(): LF, VT, FF, CR,
FS, GS, RS, NEL, LINE SEPARATOR, PARAGRAPH SEPARATOR («\r\n» counts as a
single boundary and is handled separately). -/
def isLineBoundary (c : Char) : Bool :=
  let n := c.toNat
  (10 ≤ n && n ≤ 13) || n == 28 || n == 29 || n == 30 || n == 133 ||
  n == 0x2028 || n == 0x2029

/-- Worker for splitlines: the accumulator holds the current line reversed.
A boundary at the very end of the string does not open a new empty line,
matching Python str.splitlines(). -/
def splitlinesGo : List Char → List Char → List (List Char)
  | [], acc => if acc.isEmpty then [] else [acc.reverse]
  | '\r' :: '\n' :: rest, acc => acc.reverse :: splitlinesGo rest []
  | c :: rest, acc =>
    if isLineBoundary c then acc.reverse :: splitlinesGo rest []
    else splitlinesGo rest (c :: acc)

/-- Python str.splitlines() with keepends false. -/
def splitlinesL (l : List Char) : List (List Char) :=
  splitlinesGo l []

/-- Join a list of lines with a newline between consecutive lines,
as «"\n".join(...)». -/
def joinNL : List (List Char) → List Char
  | [] => []
  | [x] => x
  | x :: xs => x ++ '\n' :: joinNL xs

/-- The function normalize of the script:
«"\n".join(line.rstrip() for line in s.strip().splitlines())». -/
def normalizeL (l : List Char) : List Char :=
  joinNL ((splitlinesL (pyStripL l)).map stripTrailing)

/-- normalize at the String level. -/
def normalize (s : String) : String :=
  ⟨normalizeL s.data⟩

/-- Worker for no-argument str.split(): tokens are maximal runs of
non-whitespace characters; the accumulator holds the current token
reversed. -/
def pySplitGo : List Char → List Char → List (List Char)
  | [], acc => if acc.isEmpty then [] else [acc.reverse]
  | c :: rest, acc =>
    if isPySpace c then
      if acc.isEmpty then pySplitGo rest [] else acc.reverse :: pySplitGo rest []
    else pySplitGo rest (c :: acc)

/-- Python line.split() with no argument, at the String level. -/
def pySplit (s : String) : List String :=
  (pySplitGo s.data []).map fun l => ⟨l⟩

/-- The reference legal agreement text REFERENCE_AGREEMENT of the script,
verbatim (a triple-quoted Python literal ending in a newline). -/
def REFERENCE_AGREEMENT : String :=
  "Я подтверждаю следующее:\n1. Я не буду списывать решения у других участников курса.\n2. При использовании больших языковых моделей (LLM) или других генеративных ИИ-инструментов\n   для выполнения домашних заданий я обязуюсь полностью понимать присланный код и быть\n   готовым пояснить, как он работает, почему используется та или иная конструкция,\n   а также внести в него изменения по запросу преподавателя.\n\nНарушение этих правил может повлечь за собой исключение из курса или\nаннулирование результатов.\n"

/-- Scalar values a YAML field can hold after yaml.safe_load, as far as the
checks of the script inspect them: strings, booleans, integers and null.
(Python floats and containers are outside the modelled value universe.) -/
inductive YVal where
  | vstr (s : String)
  | vbool (b : Bool)
  | vint (n : Int)
  | vnull
  deriving DecidableEq

/-- Python equality == between the modelled scalar values.  Python bool is a
subclass of int, so True == 1 and False == 0. -/
def pyEq : YVal → YVal → Bool
  | .vstr a, .vstr b => a == b
  | .vbool a, .vbool b => a == b
  | .vint a, .vint b => a == b
  | .vbool a, .vint b => (if a then (1 : Int) else 0) == b
  | .vint a, .vbool b => a == (if b then (1 : Int) else 0)
  | .vnull, .vnull => true
  | _, _ => false

/-- Python membership «x in (e1, e2, ...)»: containment tested with ==. -/
def pyIn (v : YVal) (l : List YVal) : Bool :=
  l.any fun e => pyEq v e

/-- Python str() of a modelled value, as interpolated by the f-strings of
the error messages. -/
def pyStr : YVal → String
  | .vstr s => s
  | .vbool true => "True"
  | .vbool false => "False"
  | .vint n => toString n
  | .vnull => "None"

/-- Python type(x).__name__ for the modelled values. -/
def pyTypeName : YVal → String
  | .vstr _ => "str"
  | .vbool _ => "bool"
  | .vint _ => "int"
  | .vnull => "NoneType"

/-- The test «isinstance(x, str) and x.strip()» used by several checks:
the value is a string that is non-empty after stripping. -/
def isNonemptyStrVal : YVal → Bool
  | .vstr s => !(pyStripL s.data).isEmpty
  | _ => false

/-- The test «x.startswith(("http://", "https://"))» on a character list. -/
def startsHttpL (l : List Char) : Bool :=
  "http://".data.isPrefixOf l || "https://".data.isPrefixOf l

/-- The repo test of the grading/repo cross-check (line 149 of the script):
«repo.startswith(("http://", "https://"))» with no stripping. -/
def crossRepoOk (s : String) : Bool :=
  startsHttpL s.data

/-- The repo test of the standalone repo check (line 123 of the script):
«repo_val.strip().startswith(("http://", "https://"))». -/
def standaloneRepoOk (s : String) : Bool :=
  startsHttpL (pyStripL s.data)

/-- The parsed YAML document: an association list mirroring the Python dict
(keys are unique in a YAML mapping; lookup takes the first binding). -/
abbrev YDict := List (String × YVal)

/-- Python «data[f]» / «f in data» on the modelled dict. -/
def lookupField (d : YDict) (f : String) : Option YVal :=
  match d with
  | [] => none
  | (k, v) :: rest => if k == f then some v else lookupField rest f

/-- The required_fields list of validate_yaml_content. -/
def requiredFields : List String :=
  ["github_username", "first_name", "last_name", "repo", "grading", "agreement", "agree_to_rules"]

def missingFieldMsg (f : String) : String :=
  "!!  В файле отсутствует обязательное поле: \x27" ++ f ++ "\x27"

def usernameTypeMsg : String :=
  "!!  Поле \x27github_username\x27 должно быть непустой строкой"

def usernameMismatchMsg (s pr : String) : String :=
  "!!  Несоответствие github_username.\n    Указано: \x27" ++ s ++
  "\x27\n    Ожидается: \x27" ++ pr ++ "\x27 (ваш GitHub username)"

def firstNameMsg : String :=
  "!!  Поле \x27first_name\x27 должно быть непустой строкой с именем"

def lastNameMsg : String :=
  "!!  Поле \x27last_name\x27 должно быть непустой строкой с фамилией"

def repoMsg (v : YVal) : String :=
  "!!  Поле \x27repo\x27 должно быть строкой \x27None\x27 или валидным URL (начинающимся с http:// или https://).\n    Получено: \x27" ++
  pyStr v ++ "\x27 (тип: " ++ pyTypeName v ++ ")"

def gradingMsg (v : YVal) : String :=
  "!!  Поле \x27grading\x27 должно быть \x27homeworks\x27 или \x27project\x27.\n    Получено: \x27" ++
  pyStr v ++ "\x27"

def crossProjectMsg : String :=
  "!!  При grading: project поле repo должно быть \x27None\x27."

def crossHomeworksMsg : String :=
  "!!  При grading: homeworks поле repo должно содержать URL репозитория."

def agreementEmptyMsg : String :=
  "!!  Поле \x27agreement\x27 должно содержать текст соглашения"

def agreementMismatchMsg : String :=
  "!!  Текст соглашения не совпадает с официальным текстом курса.\n    Скопируйте текст соглашения дословно из файла README.md в папке accepts_2025/"

def rulesMsg (v : YVal) : String :=
  "!!  Поле \x27agree_to_rules\x27 должно содержать значение \x27yes\x27.\n    Получено: \x27" ++
  pyStr v ++ "\x27"

def emptyFileMsg (yamlPath : String) : String :=
  "!!  Файл \x27" ++ yamlPath ++ "\x27 пустой или содержит только комментарии"

/-- The outcome of «yaml.safe_load» on the submitted file: the call raised an
exception (malformed YAML or an unreadable file), returned None (an empty or
comment-only document), or returned a mapping. -/
inductive ParseOutcome where
  | raised
  | nullDoc
  | docMap (d : YDict)
  deriving DecidableEq

/-- The content checks of validate_yaml_content on a parsed mapping, in
source order, accumulating error strings exactly as the Python code appends
them: the required-fields loop, then the github_username, first_name,
last_name, repo, grading, grading/repo cross, agreement and agree_to_rules
blocks. -/
def yamlChecksDict (pr : String) (d : YDict) : List String :=
  let errs1 : List String :=
    requiredFields.foldl
      (fun acc f => if (lookupField d f).isSome then acc else acc ++ [missingFieldMsg f]) []
  let errs2 := errs1 ++
    (match lookupField d "github_username" with
     | none => []
     | some (.vstr s) =>
        if (pyStripL s.data).isEmpty then [usernameTypeMsg]
        else if s ≠ pr then [usernameMismatchMsg s pr] else []
     | some _ => [usernameTypeMsg])
  let errs3 := errs2 ++
    (match lookupField d "first_name" with
     | none => []
     | some v => if isNonemptyStrVal v then [] else [firstNameMsg])
  let errs4 := errs3 ++
    (match lookupField d "last_name" with
     | none => []
     | some v => if isNonemptyStrVal v then [] else [lastNameMsg])
  let errs5 := errs4 ++
    (match lookupField d "repo" with
     | none => []
     | some v =>
        if pyIn v [.vstr "None", .vnull] then []
        else match v with
          | .vstr s => if standaloneRepoOk s then [] else [repoMsg (.vstr s)]
          | w => [repoMsg w])
  let errs6 := errs5 ++
    (match lookupField d "grading" with
     | none => []
     | some v => if pyIn v [.vstr "homeworks", .vstr "project"] then [] else [gradingMsg v])
  let errs7 := errs6 ++
    (match lookupField d "grading", lookupField d "repo" with
     | some g, some r =>
        (if pyEq g (.vstr "project") && !(pyIn r [.vstr "None", .vnull])
         then [crossProjectMsg] else []) ++
        (if pyEq g (.vstr "homeworks") &&
            !(match r with | .vstr s => crossRepoOk s | _ => false)
         then [crossHomeworksMsg] else [])
     | _, _ => [])
  let errs8 := errs7 ++
    (match lookupField d "agreement" with
     | none => []
     | some (.vstr s) =>
        if (pyStripL s.data).isEmpty then [agreementEmptyMsg]
        else if normalizeL s.data ≠ normalizeL REFERENCE_AGREEMENT.data
        then [agreementMismatchMsg] else []
     | some _ => [agreementEmptyMsg])
  let errs9 := errs8 ++
    (match lookupField d "agree_to_rules" with
     | none => []
     | some v => if pyIn v [.vstr "yes", .vbool true] then [] else [rulesMsg v])
  errs9

/-- validate_yaml_content of the script.  The bare «except:» handler at the
bottom of its try block only prints a message; an exception raised by
open/yaml.safe_load at the top of the block therefore makes the function
return the error list accumulated up to that point, which is empty. -/
def validateYamlContent (pr yamlPath : String) (p : ParseOutcome) : List String :=
  match p with
  | .raised => []
  | .nullDoc => [emptyFileMsg yamlPath]
  | .docMap d => yamlChecksDict pr d

/-- The per-block components of yamlChecksDict, used to state that the
monolithic accumulation decomposes into independent checks.  First the
required-fields loop as a filterMap. -/
def requiredErrs (d : YDict) : List String :=
  requiredFields.filterMap
    fun f => if (lookupField d f).isSome then none else some (missingFieldMsg f)

def usernameErrs (pr : String) (d : YDict) : List String :=
  match lookupField d "github_username" with
  | none => []
  | some (.vstr s) =>
      if (pyStripL s.data).isEmpty then [usernameTypeMsg]
      else if s ≠ pr then [usernameMismatchMsg s pr] else []
  | some _ => [usernameTypeMsg]

def firstNameErrs (d : YDict) : List String :=
  match lookupField d "first_name" with
  | none => []
  | some v => if isNonemptyStrVal v then [] else [firstNameMsg]

def lastNameErrs (d : YDict) : List String :=
  match lookupField d "last_name" with
  | none => []
  | some v => if isNonemptyStrVal v then [] else [lastNameMsg]

def repoErrs (d : YDict) : List String :=
  match lookupField d "repo" with
  | none => []
  | some v =>
      if pyIn v [.vstr "None", .vnull] then []
      else match v with
        | .vstr s => if standaloneRepoOk s then [] else [repoMsg (.vstr s)]
        | w => [repoMsg w]

def gradingErrs (d : YDict) : List String :=
  match lookupField d "grading" with
  | none => []
  | some v => if pyIn v [.vstr "homeworks", .vstr "project"] then [] else [gradingMsg v]

def crossErrs (d : YDict) : List String :=
  match lookupField d "grading", lookupField d "repo" with
  | some g, some r =>
      (if pyEq g (.vstr "project") && !(pyIn r [.vstr "None", .vnull])
       then [crossProjectMsg] else []) ++
      (if pyEq g (.vstr "homeworks") &&
          !(match r with | .vstr s => crossRepoOk s | _ => false)
       then [crossHomeworksMsg] else [])
  | _, _ => []

def agreementErrs (d : YDict) : List String :=
  match lookupField d "agreement" with
  | none => []
  | some (.vstr s) =>
      if (pyStripL s.data).isEmpty then [agreementEmptyMsg]
      else if normalizeL s.data ≠ normalizeL REFERENCE_AGREEMENT.data
      then [agreementMismatchMsg] else []
  | some _ => [agreementEmptyMsg]

def rulesErrs (d : YDict) : List String :=
  match lookupField d "agree_to_rules" with
  | none => []
  | some v => if pyIn v [.vstr "yes", .vbool true] then [] else [rulesMsg v]

/-- Characters that Python re.escape (since 3.7) prefixes with a backslash:
the bytes of «()[]\x7b\x7d?*+-|^$\\.&~# \t\n\r\v\f». -/
def isEscapedChar (c : Char) : Bool :=
  ['(', ')', '[', ']', '\x7b', '\x7d', '?', '*', '+', '-', '|', '^', '$',
   '\\', '.', '&', '~', '#', ' ', '\t', '\n', '\r', '\x0b', '\x0c'].contains c

/-- Python re.escape on a character list. -/
def reEscapeL : List Char → List Char
  | [] => []
  | c :: rest => (if isEscapedChar c then ['\\', c] else [c]) ++ reEscapeL rest

/-- Python re.escape at the String level. -/
def reEscape (s : String) : String :=
  ⟨reEscapeL s.data⟩

/-- Characters with a special meaning at the top level of a Python regular
expression outside a character class. -/
def isRegexMeta (c : Char) : Bool :=
  ['.', '^', '$', '*', '+', '?', '\x7b', '\x7d', '[', ']', '|', '(', ')',
   '\\'].contains c

/-- ASCII letters and digits: a backslash followed by one of these is a
special escape sequence in a Python regular expression (e.g. a character
class), never a literal. -/
def isAsciiAlnum (c : Char) : Bool :=
  ('a' ≤ c && c ≤ 'z') || ('A' ≤ c && c ≤ 'Z') || ('0' ≤ c && c ≤ '9')

/-- Compile a regular-expression pattern that consists only of literal
characters (plain non-special characters and backslash-escaped non-alphanumeric
characters) into the character list it matches; none for any construct beyond
such literals.  The patterns built by validate_branch_name — re.escape of the
author followed by the plain text «_accept» — always fall in this fragment. -/
def compileLit : List Char → Option (List Char)
  | [] => some []
  | c :: rest =>
    if c = '\\' then
      match rest with
      | [] => none
      | d :: rest2 =>
        if isAsciiAlnum d then none else (compileLit rest2).map (d :: ·)
    else if isRegexMeta c then none
    else (compileLit rest).map (c :: ·)

/-- Python re.fullmatch restricted to the literal fragment: some true when
the whole string matches the pattern, some false when it does not, none when
the pattern lies outside the modelled fragment. -/
def reFullmatch (pat s : String) : Option Bool :=
  (compileLit pat.data).map fun toks => s.data == toks

def branchErrMsg (expected got : String) : String :=
  "!!  Неверное имя ветки.\n    Ожидается: \x27" ++ expected ++
  "\x27\n    Получено:  \x27" ++ got ++ "\x27\n"

/-- validate_branch_name of the script: a fullmatch of the escaped author
name followed by «_accept» against the branch name; none models an exception
escaping the regex engine (it never occurs on these patterns). -/
def validateBranchName (prAuthor prBranch : String) : Option (List String) :=
  let expected := prAuthor ++ "_accept"
  match reFullmatch (reEscape prAuthor ++ "_accept") prBranch with
  | none => none
  | some b => some (if b then [] else [branchErrMsg expected prBranch])

def titleErrMsg (expected got : String) : String :=
  "!!  Неверный заголовок pull request.\n    Ожидается: \x27" ++ expected ++
  "\x27\n    Получено:  \x27" ++ got ++ "\x27\n"

/-- validate_pr_title of the script. -/
def validatePrTitle (prAuthor prTitle : String) : List String :=
  let expected := "acceptance-orch2025-" ++ prAuthor
  if prTitle ≠ expected then [titleErrMsg expected prTitle] else []

/-- The path «accepts_2025/{pr_author}.yaml» built by validate_file_exists
and validate_changed_files. -/
def expectedYamlPath (prAuthor : String) : String :=
  "accepts_2025/" ++ prAuthor ++ ".yaml"

def fileNotFoundMsg (prAuthor : String) : String :=
  "!!  Файл не найден.\n    Ожидаемый путь: \x27accepts_2025/" ++ prAuthor ++
  ".yaml\x27\n    Убедитесь, что файл создан в правильной папке и имеет правильное имя."

/-- validate_file_exists of the script: the existence of the file is an
oracle input; the function returns its error list together with the path
(None when the file is missing). -/
def validateFileExists (prAuthor : String) (fileIsThere : Bool) :
    List String × Option String :=
  if fileIsThere then ([], some (expectedYamlPath prAuthor))
  else ([fileNotFoundMsg prAuthor], none)

/-- The outcome of the «git diff --name-status» subprocess: the lines of its
stdout on success, or the message of a subprocess.CalledProcessError. -/
inductive GitOutcome where
  | ok (lines : List String)
  | fail (msg : String)
  deriving DecidableEq

def changeCountMsg (n : Nat) : String :=
  "!!  PR должен содержать ровно один изменённый файл.\n    Обнаружено изменений: " ++
  toString n

def statusErrMsg (status path : String) : String :=
  "!!  Файл должен быть *добавлен*, а не изменён или удалён.\n    Получено: " ++
  status ++ " " ++ path

def pathErrMsg (expected got : String) : String :=
  "!!  Неверное имя файла.\n    Ожидается: " ++ expected ++ "\n    Получено:  " ++ got

def gitFailMsg (e : String) : String :=
  "!!  Ошибка git diff: " ++ e

/-- validate_changed_files of the script.  Each stdout line is split with
line.split(); the single change is destructured with «status, path = ...»,
which raises an unhandled ValueError — modelled as none — when the line does
not split into exactly two fields. -/
def validateChangedFiles (prAuthor : String) (g : GitOutcome) :
    Option (List String) :=
  match g with
  | .fail e => some [gitFailMsg e]
  | .ok lines =>
    match lines.map pySplit with
    | [tokens] =>
      match tokens with
      | [status, path] =>
        some ((if status ≠ "A" then [statusErrMsg status path] else []) ++
          (if path ≠ expectedYamlPath prAuthor then [pathErrMsg (expectedYamlPath prAuthor) path] else []))
      | _ => none
    | changes => some [changeCountMsg changes.length]

/-- The raw inputs of one invocation: the five environment variables read by
load_env_vars, the existence of the expected YAML file, the outcome of
parsing it, and the outcome of the git subprocess. -/
structure World where
  prTitleEnv : String
  prBranchEnv : String
  prAuthorEnv : String
  baseShaEnv : String
  headShaEnv : String
  fileIsThere : Bool
  parse : ParseOutcome
  git : GitOutcome

/-- load_env_vars of the script: every variable is stripped. -/
def loadEnvVars (w : World) : String × String × String :=
  (pyStrip w.prTitleEnv, pyStrip w.prBranchEnv, pyStrip w.prAuthorEnv)

/-- The exit-code mapping of main: «sys.exit(0 if not all_errors else 1)». -/
def exitCodeOf (errors : List String) : Nat :=
  if errors.isEmpty then 0 else 1

/-- main of the script: run the five validation steps in order, extend one
accumulated error list, and exit with the code determined by that list.
The YAML-content step runs only when validate_file_exists returned a path.
none models an unhandled exception aborting the process. -/
def mainRun (w : World) : Option (List String × Nat) :=
  let prTitle := pyStrip w.prTitleEnv
  let prBranch := pyStrip w.prBranchEnv
  let prAuthor := pyStrip w.prAuthorEnv
  match validateBranchName prAuthor prBranch with
  | none => none
  | some branchErrors =>
    let titleErrors := validatePrTitle prAuthor prTitle
    let fe := validateFileExists prAuthor w.fileIsThere
    let contentErrors :=
      match fe.2 with
      | some yamlPath => validateYamlContent prAuthor yamlPath w.parse
      | none => []
    match validateChangedFiles prAuthor w.git with
    | none => none
    | some changedErrors =>
      let allErrors :=
        branchErrors ++ titleErrors ++ fe.1 ++ contentErrors ++ changedErrors
      some (allErrors, exitCodeOf allErrors)

/-- A record whose fields are all present and individually valid, with
grading project and a URL repo. -/
def recProjectWithRepo : YDict :=
  [("github_username", YVal.vstr "frank"), ("first_name", YVal.vstr "Имя"),
   ("last_name", YVal.vstr "Фамилия"),
   ("repo", YVal.vstr "http://github.com/frank/work"),
   ("grading", YVal.vstr "project"),
   ("agreement", YVal.vstr REFERENCE_AGREEMENT),
   ("agree_to_rules", YVal.vstr "yes")]

/-- The same record with only the grading field changed to homeworks. -/
def recHomeworksWithRepo : YDict :=
  [("github_username", YVal.vstr "frank"), ("first_name", YVal.vstr "Имя"),
   ("last_name", YVal.vstr "Фамилия"),
   ("repo", YVal.vstr "http://github.com/frank/work"),
   ("grading", YVal.vstr "homeworks"),
   ("agreement", YVal.vstr REFERENCE_AGREEMENT),
   ("agree_to_rules", YVal.vstr "yes")]

/-
Helper lemmas.
-/

theorem stringEqIffData (s t : String) : s = t ↔ s.data = t.data := by
  constructor
  · intro h
    rw [h]
  · intro h
    cases s
    cases t
    exact congrArg String.mk h

theorem stringDataAppend (s t : String) : (s ++ t).data = s.data ++ t.data := by
  cases s
  cases t
  rfl

theorem escapedChar_not_alnum (c : Char) (h : isEscapedChar c = true) :
    isAsciiAlnum c = false := by
  have hm : c ∈ ['(', ')', '[', ']', '\x7b', '\x7d', '?', '*', '+', '-', '|', '^', '$',
      '\\', '.', '&', '~', '#', ' ', '\t', '\n', '\r', '\x0b', '\x0c'] := by
    simpa [isEscapedChar] using h
  fin_cases hm <;> decide

theorem regexMeta_is_escaped (c : Char) (h : isRegexMeta c = true) :
    isEscapedChar c = true := by
  have hm : c ∈ ['.', '^', '$', '*', '+', '?', '\x7b', '\x7d', '[', ']', '|', '(', ')',
      '\\'] := by
    simpa [isRegexMeta] using h
  fin_cases hm <;> decide

theorem compileLit_cons_unescaped (c : Char) (rest : List Char) (hne : c ≠ '\\')
    (hmeta : isRegexMeta c = false) :
    compileLit (c :: rest) = (compileLit rest).map (c :: ·) := by
  rw [compileLit.eq_def]
  simp [hne, hmeta]

theorem compileLit_cons_escaped (d : Char) (rest : List Char)
    (halnum : isAsciiAlnum d = false) :
    compileLit ('\\' :: d :: rest) = (compileLit rest).map (d :: ·) := by
  rw [compileLit.eq_def]
  simp [halnum]

theorem compileLit_escape (l : List Char) :
    ∀ rest : List Char,
      compileLit (reEscapeL l ++ rest) = (compileLit rest).map fun t => l ++ t := by
  induction l with
  | nil =>
    intro rest
    cases h : compileLit rest <;> simp [reEscapeL, h]
  | cons c l ih =>
    intro rest
    cases hesc : isEscapedChar c with
    | true =>
      have halnum := escapedChar_not_alnum c hesc
      have hsh : reEscapeL (c :: l) ++ rest = '\\' :: c :: (reEscapeL l ++ rest) := by
        simp [reEscapeL, hesc]
      rw [hsh, compileLit_cons_escaped c (reEscapeL l ++ rest) halnum, ih rest]
      cases compileLit rest <;> simp
    | false =>
      have hne : c ≠ '\\' := by
        intro e
        rw [e] at hesc
        exact absurd hesc (by decide)
      have hmeta : isRegexMeta c = false := by
        cases hm : isRegexMeta c
        · rfl
        · rw [regexMeta_is_escaped c hm] at hesc
          exact absurd hesc (by decide)
      have hsh : reEscapeL (c :: l) ++ rest = c :: (reEscapeL l ++ rest) := by
        simp [reEscapeL, hesc]
      rw [hsh, compileLit_cons_unescaped c (reEscapeL l ++ rest) hne hmeta, ih rest]
      cases compileLit rest <;> simp

theorem prefixOf_stripTrailing (pat : List Char) (hpat : pat.all (fun c => !isPySpace c) = true) :
    ∀ l : List Char, pat.isPrefixOf l = true → pat.isPrefixOf (stripTrailing l) = true := by
  induction pat with
  | nil =>
    intro l _
    simp
  | cons p ps ih =>
    intro l hl
    match l with
    | [] => exact absurd hl (by simp)
    | b :: l2 =>
      simp only [List.isPrefixOf_cons₂, Bool.and_eq_true, beq_iff_eq] at hl
      obtain ⟨rfl, htail⟩ := hl
      have hps : ps.all (fun c => !isPySpace c) = true := by
        simp only [List.all_cons, Bool.and_eq_true] at hpat
        exact hpat.2
      have hp : isPySpace p = false := by
        simp only [List.all_cons, Bool.and_eq_true, Bool.not_eq_eq_eq_not, Bool.not_true] at hpat
        exact hpat.1
      have ihl2 := ih hps l2 htail
      cases hst : stripTrailing l2 with
      | nil =>
        rw [hst] at ihl2
        have hpsnil : ps = [] := by
          cases ps with
          | nil => rfl
          | cons q qs => exact absurd ihl2 (by simp)
        subst hpsnil
        simp [stripTrailing, hst, hp]
      | cons r rs =>
        rw [hst] at ihl2
        simp [stripTrailing, hst, List.isPrefixOf_cons₂, ihl2]

theorem prefixOf_pyStripL (pat : List Char) (hpat : pat.all (fun c => !isPySpace c) = true)
    (l : List Char) (hl : pat.isPrefixOf l = true) :
    pat.isPrefixOf (pyStripL l) = true := by
  cases pat with
  | nil => simp
  | cons p ps =>
    match l with
    | [] => exact absurd hl (by simp)
    | b :: l2 =>
      have hp : isPySpace p = false := by
        simp only [List.all_cons, Bool.and_eq_true, Bool.not_eq_eq_eq_not, Bool.not_true] at hpat
        exact hpat.1
      have hpb : p = b := by
        simp only [List.isPrefixOf_cons₂, Bool.and_eq_true, beq_iff_eq] at hl
        exact hl.1
      have hdrop : (b :: l2).dropWhile isPySpace = b :: l2 := by
        rw [List.dropWhile_cons, ← hpb, hp]
        simp
      unfold pyStripL
      rw [hdrop]
      exact prefixOf_stripTrailing (p :: ps) hpat (b :: l2) hl

theorem compileLit_literalText :
    compileLit "_accept".data = some "_accept".data := by
  decide

theorem reFullmatch_escaped_eq (prAuthor prBranch : String) :
    reFullmatch (reEscape prAuthor ++ "_accept") prBranch =
      some (prBranch.data == prAuthor.data ++ "_accept".data) := by
  have hdata : (reEscape prAuthor ++ "_accept").data =
      reEscapeL prAuthor.data ++ "_accept".data := by
    rw [stringDataAppend]
    rfl
  unfold reFullmatch
  rw [hdata, compileLit_escape, compileLit_literalText]
  rfl

theorem foldl_missing_filterMap (d : YDict) :
    ∀ (fs : List String) (init : List String),
      fs.foldl
        (fun acc f => if (lookupField d f).isSome then acc else acc ++ [missingFieldMsg f])
        init =
      init ++ fs.filterMap
        (fun f => if (lookupField d f).isSome then none else some (missingFieldMsg f)) := by
  intro fs
  induction fs with
  | nil => simp
  | cons f fs ih =>
    intro init
    by_cases h : (lookupField d f).isSome <;>
      simp [List.foldl_cons, List.filterMap_cons, h, ih]

/-
Claim theorems.
-/

/-- Claim C8: the branch-name check via re.fullmatch with the escaped author
name is equivalent to plain string equality: for every pr_author and
pr_branch, validate_branch_name returns an empty error list if and only if
pr_branch equals pr_author followed by the text «_accept». -/
theorem claimC8_branch_fullmatch_is_equality (prAuthor prBranch : String) :
    validateBranchName prAuthor prBranch = some [] ↔
      prBranch = prAuthor ++ "_accept" := by
  unfold validateBranchName
  rw [reFullmatch_escaped_eq]
  by_cases hb : prBranch.data = prAuthor.data ++ "_accept".data
  · simp [hb, stringEqIffData, stringDataAppend]
  · simp [beq_iff_eq, hb, stringEqIffData, stringDataAppend]

/-- Claim C9 (amended): every repo string accepted by the grading/repo
cross-check prefix test (no stripping) is also accepted by the standalone
repo prefix test (which strips first); the converse fails. -/
theorem claimC9_cross_accepts_subset_of_standalone (s : String)
    (h : crossRepoOk s = true) : standaloneRepoOk s = true := by
  unfold crossRepoOk startsHttpL at h
  unfold standaloneRepoOk startsHttpL
  rw [Bool.or_eq_true] at h
  rw [Bool.or_eq_true]
  cases h with
  | inl h1 =>
    exact Or.inl (prefixOf_pyStripL "http://".data (by decide) s.data h1)
  | inr h2 =>
    exact Or.inr (prefixOf_pyStripL "https://".data (by decide) s.data h2)

/-- Witness for claim C9: the theorem applied to the URL
«http://example.com», whose cross-check acceptance is discharged by
computation. -/
theorem claimC9_witness : standaloneRepoOk "http://example.com" = true :=
  claimC9_cross_accepts_subset_of_standalone "http://example.com" (by decide)

/-- Claim C9 counterexample: a repo string with a leading space is accepted
by the standalone repo check but rejected by the grading/repo cross-check on
a record with grading homeworks, so the two checks do not accept the same
repo strings. -/
theorem claimC9_counterexample :
    standaloneRepoOk " http://example.org" = true ∧
    crossRepoOk " http://example.org" = false ∧
    repoErrs [("repo", YVal.vstr " http://example.org"),
      ("grading", YVal.vstr "homeworks")] = [] ∧
    crossErrs [("repo", YVal.vstr " http://example.org"),
      ("grading", YVal.vstr "homeworks")] = [crossHomeworksMsg] := by
  decide

/-- Claim C10 (amended): when the git diff succeeds with exactly one changed
entry, destructuring that entry succeeds — validate_changed_files returns an
error list rather than raising — precisely when the line splits into exactly
two whitespace-separated fields; for any other field count the unpacking
raises an unhandled ValueError. -/
theorem claimC10_destructure_iff_two_fields (a l : String) :
    (validateChangedFiles a (GitOutcome.ok [l])).isSome = true ↔
      (pySplit l).length = 2 := by
  rcases h : pySplit l with _ | ⟨s, _ | ⟨p, _ | ⟨q, ts⟩⟩⟩ <;>
    simp [validateChangedFiles, h]

/-- Claim C10 counterexample: a git rename entry is a single changed entry
whose line splits into three fields; destructuring it raises an unhandled
exception (modelled as none) instead of returning an error list. -/
theorem claimC10_counterexample :
    (["R100 old.yaml new.yaml"] : List String).length = 1 ∧
    validateChangedFiles "carol" (GitOutcome.ok ["R100 old.yaml new.yaml"]) = none := by
  constructor
  · rfl
  · decide

/-- Claim C4 (amended): for diff outputs in which every line splits into
exactly two whitespace-separated fields, validate_changed_files returns an
error list (it does not raise), and that list is empty exactly when the diff
reports one changed entry whose status is «A» and whose path is
accepts_2025/pr_author.yaml; outside the two-field format a single entry
makes the function raise instead of accumulating an error. -/
theorem claimC4_changed_files_characterization (a : String) (lines : List String)
    (h : ∀ l ∈ lines, (pySplit l).length = 2) :
    (validateChangedFiles a (GitOutcome.ok lines)).isSome = true ∧
    (validateChangedFiles a (GitOutcome.ok lines) = some [] ↔
      ∃ l, lines = [l] ∧ pySplit l = ["A", expectedYamlPath a]) := by
  match lines with
  | [] =>
    simp [validateChangedFiles]
  | [l1] =>
    have h1 : (pySplit l1).length = 2 := h l1 (by simp)
    obtain ⟨s, p, hsp⟩ := List.length_eq_two.mp h1
    by_cases hs : s = "A"
    · by_cases hp : p = expectedYamlPath a
      · subst hs
        subst hp
        simp [validateChangedFiles, hsp]
      · subst hs
        simp [validateChangedFiles, hsp, hp]
    · by_cases hp : p = expectedYamlPath a
      · subst hp
        simp [validateChangedFiles, hsp, hs]
      · simp [validateChangedFiles, hsp, hs, hp]
  | l1 :: l2 :: ls =>
    simp [validateChangedFiles]

/-- Witness for claim C4: the theorem applied to a well-formed one-entry
diff adding the expected file, the splitting hypothesis discharged by
computation. -/
theorem claimC4_witness :
    validateChangedFiles "alice" (GitOutcome.ok ["A accepts_2025/alice.yaml"]) = some [] :=
  ((claimC4_changed_files_characterization "alice" ["A accepts_2025/alice.yaml"]
    (by decide)).2).mpr ⟨"A accepts_2025/alice.yaml", rfl, by decide⟩

/-- Claim C4 counterexample: a diff with exactly one changed entry whose
status is not «A» (a rename, whose line has three fields): the claim as
stated demands at least one accumulated error, but the function raises an
unhandled exception and returns no error list at all. -/
theorem claimC4_counterexample :
    (["R100\taccepts_2025/dave.yaml\taccepts_2025/dave2.yaml"] : List String).length = 1 ∧
    (pySplit "R100\taccepts_2025/dave.yaml\taccepts_2025/dave2.yaml").head? = some "R100" ∧
    validateChangedFiles "dave"
      (GitOutcome.ok ["R100\taccepts_2025/dave.yaml\taccepts_2025/dave2.yaml"]) = none := by
  refine ⟨rfl, ?_, ?_⟩
  · decide
  · decide

/-- Claim C3 (amended): the agreement check passes — adds no error — exactly
when the field holds a string that is non-empty after stripping and whose
normalized form (strip, splitlines, rstrip each line, join) equals the
normalized reference agreement; character-exact equality with the reference
text is not required. -/
theorem claimC3_agreement_normalized_match (d : YDict) (v : YVal)
    (h : lookupField d "agreement" = some v) :
    agreementErrs d = [] ↔
      ∃ s, v = YVal.vstr s ∧ (pyStripL s.data).isEmpty = false ∧
        normalizeL s.data = normalizeL REFERENCE_AGREEMENT.data := by
  unfold agreementErrs
  rw [h]
  rcases v with s | b | n | _
  · by_cases he : (pyStripL s.data).isEmpty = true
    · have hnil : pyStripL s.data = [] := by simpa using he
      simp [he, hnil]
    · have he2 : (pyStripL s.data).isEmpty = false := by
        cases hb : (pyStripL s.data).isEmpty
        · rfl
        · exact absurd hb he
      by_cases hn : normalizeL s.data = normalizeL REFERENCE_AGREEMENT.data
      · simp only [he2, Bool.false_eq_true, if_false, hn, ne_eq, not_true_eq_false]
        simp [hn]
        simpa using he2
      · simp [he2, hn]
  · simp
  · simp
  · simp

/-- Witness for claim C3: the theorem applied to a record whose agreement
field is the reference text itself, the lookup hypothesis discharged by
rfl. -/
theorem claimC3_witness :
    agreementErrs [("agreement", YVal.vstr REFERENCE_AGREEMENT)] = [] :=
  (claimC3_agreement_normalized_match
      [("agreement", YVal.vstr REFERENCE_AGREEMENT)]
      (YVal.vstr REFERENCE_AGREEMENT) rfl).mpr
    ⟨REFERENCE_AGREEMENT, rfl, by decide, rfl⟩

/-- Claim C3 counterexample: appending a trailing space to the reference
text gives a string that differs character-wise from REFERENCE_AGREEMENT yet
passes the agreement check, because the check compares normalize(value) with
normalize(REFERENCE_AGREEMENT) rather than requiring an exact match. -/
theorem claimC3_counterexample :
    agreementErrs [("agreement", YVal.vstr (REFERENCE_AGREEMENT ++ " "))] = [] ∧
    ((REFERENCE_AGREEMENT ++ " ") == REFERENCE_AGREEMENT) = false := by
  constructor
  · decide
  · decide

/-- Claim C5 (amended): the grading check adds no error exactly when the
field equals the string homeworks or the string project; the agree_to_rules
check adds no error exactly when the field equals the string yes or a value
that Python considers equal to True — the boolean true (what YAML parses
«yes» into) or the integer 1. -/
theorem claimC5_enumerated_fields (d : YDict) :
    (∀ v, lookupField d "grading" = some v →
      (gradingErrs d = [] ↔
        v = YVal.vstr "homeworks" ∨ v = YVal.vstr "project")) ∧
    (∀ v, lookupField d "agree_to_rules" = some v →
      (rulesErrs d = [] ↔
        v = YVal.vstr "yes" ∨ v = YVal.vbool true ∨ v = YVal.vint 1)) := by
  constructor
  · intro v h
    unfold gradingErrs
    rw [h]
    rcases v with s | b | n | _
    · by_cases h1 : s = "homeworks"
      · simp [pyIn, pyEq, h1]
      · by_cases h2 : s = "project"
        · simp [pyIn, pyEq, h1, h2]
        · simp [pyIn, pyEq, h1, h2]
    · cases b <;> simp [pyIn, pyEq]
    · simp [pyIn, pyEq]
    · simp [pyIn, pyEq]
  · intro v h
    unfold rulesErrs
    rw [h]
    rcases v with s | b | n | _
    · by_cases h1 : s = "yes"
      · simp [pyIn, pyEq, h1]
      · simp [pyIn, pyEq, h1]
    · cases b <;> simp [pyIn, pyEq]
    · by_cases h1 : n = 1
      · simp [pyIn, pyEq, h1]
      · simp [pyIn, pyEq, h1]
    · simp [pyIn, pyEq]

/-- Witness for claim C5: the theorem applied to records holding the
enumerated values project and the string yes. -/
theorem claimC5_witness :
    gradingErrs [("grading", YVal.vstr "project")] = [] :=
  ((claimC5_enumerated_fields [("grading", YVal.vstr "project")]).1
    (YVal.vstr "project") rfl).mpr (Or.inr rfl)

/-- Claim C5 counterexample: the boolean True — the value PyYAML produces
for a bare «yes» — is accepted by the agree_to_rules check although it is
not the string yes, so «adds no error if and only if its value is yes» fails
as stated. -/
theorem claimC5_counterexample :
    lookupField [("agree_to_rules", YVal.vbool true)] "agree_to_rules" =
      some (YVal.vbool true) ∧
    rulesErrs [("agree_to_rules", YVal.vbool true)] = [] ∧
    (YVal.vbool true == YVal.vstr "yes") = false := by
  decide

/-- Claim C7 (amended): the error list of the content checks decomposes into
the required-fields scan followed by the per-field checks and the
grading/repo cross-check, in source order; besides field presence, the
checks test non-empty-string shape, string equality, URL-prefix form, and —
in the cross-check — a relation between the grading and repo fields. -/
theorem claimC7_content_checks_decompose (pr : String) (d : YDict) :
    yamlChecksDict pr d =
      requiredErrs d ++ usernameErrs pr d ++ firstNameErrs d ++ lastNameErrs d ++
      repoErrs d ++ gradingErrs d ++ crossErrs d ++ agreementErrs d ++ rulesErrs d := by
  unfold yamlChecksDict requiredErrs usernameErrs firstNameErrs lastNameErrs
    repoErrs gradingErrs crossErrs agreementErrs rulesErrs
  rw [foldl_missing_filterMap]
  simp [List.append_assoc]

/-- Claim C7 counterexample: two records with every required field present,
identical repo values and every single-field check passing, where changing
only the grading field makes an error about the repo field appear: the
cross-check error depends on the relation between two fields, not on the
presence or value of any single field. -/
theorem claimC7_counterexample :
    lookupField recProjectWithRepo "repo" = lookupField recHomeworksWithRepo "repo" ∧
    (requiredFields.all fun f => (lookupField recProjectWithRepo f).isSome) = true ∧
    (requiredFields.all fun f => (lookupField recHomeworksWithRepo f).isSome) = true ∧
    yamlChecksDict "frank" recProjectWithRepo = [crossProjectMsg] ∧
    yamlChecksDict "frank" recHomeworksWithRepo = [] := by
  refine ⟨rfl, rfl, rfl, ?_, ?_⟩
  · decide
  · decide

/-- Claim C1: for every invocation that terminates normally, the exit status
is binary and determined solely by the accumulated error list: status 0 when
the concatenated error list is empty and status 1 otherwise. -/
theorem claimC1_exit_binary (w : World) (errs : List String) (code : Nat)
    (h : mainRun w = some (errs, code)) :
    (code = 0 ∨ code = 1) ∧ (code = 0 ↔ errs = []) := by
  simp only [mainRun] at h
  cases hb : validateBranchName (pyStrip w.prAuthorEnv) (pyStrip w.prBranchEnv) with
  | none =>
    rw [hb] at h
    exact absurd h (by simp)
  | some branchErrors =>
    rw [hb] at h
    cases hc : validateChangedFiles (pyStrip w.prAuthorEnv) w.git with
    | none =>
      rw [hc] at h
      exact absurd h (by simp)
    | some changedErrors =>
      rw [hc] at h
      simp only [Option.some.injEq, Prod.mk.injEq] at h
      obtain ⟨h1, h2⟩ := h
      rw [← h2, ← h1]
      cases hE : (branchErrors ++ validatePrTitle (pyStrip w.prAuthorEnv) (pyStrip w.prTitleEnv) ++
          (validateFileExists (pyStrip w.prAuthorEnv) w.fileIsThere).1 ++
          (match (validateFileExists (pyStrip w.prAuthorEnv) w.fileIsThere).2 with
           | some yamlPath => validateYamlContent (pyStrip w.prAuthorEnv) yamlPath w.parse
           | none => []) ++ changedErrors) with
      | nil => simp [exitCodeOf, hE]
      | cons e es => simp [exitCodeOf, hE]

/-- Witness for claim C1: the theorem applied to an invocation whose checks
all pass, with the hypothesis discharged by computation. -/
theorem claimC1_witness :
    ((0 : Nat) = 0 ∨ (0 : Nat) = 1) ∧ ((0 : Nat) = 0 ↔ ([] : List String) = []) :=
  claimC1_exit_binary
    { prTitleEnv := "acceptance-orch2025-gina", prBranchEnv := "gina_accept",
      prAuthorEnv := "gina", baseShaEnv := "b", headShaEnv := "h",
      fileIsThere := true, parse := ParseOutcome.raised,
      git := GitOutcome.ok ["A\taccepts_2025/gina.yaml"] } [] 0 (by decide)

/-- Claim C2 (the code violates it): when yaml.safe_load raises, the bare
except handler of validate_yaml_content only prints; the function returns an
empty error list, and an otherwise valid invocation with a malformed YAML
file exits with status 0 instead of 1. -/
theorem claimC2_parse_error_swallowed :
    validateYamlContent "alice" (expectedYamlPath "alice") ParseOutcome.raised = [] ∧
    mainRun
      { prTitleEnv := "acceptance-orch2025-alice", prBranchEnv := "alice_accept",
        prAuthorEnv := "alice", baseShaEnv := "b", headShaEnv := "h",
        fileIsThere := true, parse := ParseOutcome.raised,
        git := GitOutcome.ok ["A\taccepts_2025/alice.yaml"] } = some ([], 0) := by
  constructor
  · rfl
  · decide

/-- Claim C6 (amended): the accumulated error list of main is the
concatenation of the five steps in order, where the yaml-content step
receives the path computed by validate_file_exists and contributes nothing
when that path is None; the exit code is computed from the accumulated list
alone.  Apart from this path, only error lists flow between the steps. -/
theorem claimC6_error_list_flow (w : World) (errs : List String) (code : Nat)
    (h : mainRun w = some (errs, code)) :
    code = exitCodeOf errs ∧
    errs =
      (validateBranchName (pyStrip w.prAuthorEnv) (pyStrip w.prBranchEnv)).getD [] ++
      validatePrTitle (pyStrip w.prAuthorEnv) (pyStrip w.prTitleEnv) ++
      (validateFileExists (pyStrip w.prAuthorEnv) w.fileIsThere).1 ++
      (match (validateFileExists (pyStrip w.prAuthorEnv) w.fileIsThere).2 with
       | some yamlPath => validateYamlContent (pyStrip w.prAuthorEnv) yamlPath w.parse
       | none => []) ++
      (validateChangedFiles (pyStrip w.prAuthorEnv) w.git).getD [] := by
  simp only [mainRun] at h
  cases hb : validateBranchName (pyStrip w.prAuthorEnv) (pyStrip w.prBranchEnv) with
  | none =>
    rw [hb] at h
    exact absurd h (by simp)
  | some branchErrors =>
    rw [hb] at h
    cases hc : validateChangedFiles (pyStrip w.prAuthorEnv) w.git with
    | none =>
      rw [hc] at h
      exact absurd h (by simp)
    | some changedErrors =>
      rw [hc] at h
      simp only [Option.some.injEq, Prod.mk.injEq] at h
      obtain ⟨h1, h2⟩ := h
      rw [← h1, ← h2]
      simp [Option.getD]

/-- Witness for claim C6: the theorem applied to an all-passing invocation,
the hypothesis discharged by computation. -/
theorem claimC6_witness :
    (0 : Nat) = exitCodeOf [] ∧
    ([] : List String) =
      (validateBranchName (pyStrip "hana") (pyStrip "hana_accept")).getD [] ++
      validatePrTitle (pyStrip "hana") (pyStrip "acceptance-orch2025-hana") ++
      (validateFileExists (pyStrip "hana") true).1 ++
      (match (validateFileExists (pyStrip "hana") true).2 with
       | some yamlPath => validateYamlContent (pyStrip "hana") yamlPath ParseOutcome.raised
       | none => []) ++
      (validateChangedFiles (pyStrip "hana")
        (GitOutcome.ok ["A\taccepts_2025/hana.yaml"])).getD [] :=
  claimC6_error_list_flow
    { prTitleEnv := "acceptance-orch2025-hana", prBranchEnv := "hana_accept",
      prAuthorEnv := "hana", baseShaEnv := "", headShaEnv := "",
      fileIsThere := true, parse := ParseOutcome.raised,
      git := GitOutcome.ok ["A\taccepts_2025/hana.yaml"] } [] 0 (by decide)

/-- Claim C6 counterexample: two invocations identical in every input that
validate_yaml_content reads (the author and the parse outcome), differing
only in the file-existence outcome of validate_file_exists: the yaml-content
error appears in exactly one of them, so the yaml-content step depends on
the path value computed by validate_file_exists — data does flow between
validation steps beyond error lists. -/
theorem claimC6_counterexample :
    mainRun
      { prTitleEnv := "acceptance-orch2025-dora", prBranchEnv := "dora_accept",
        prAuthorEnv := "dora", baseShaEnv := "", headShaEnv := "",
        fileIsThere := true, parse := ParseOutcome.nullDoc,
        git := GitOutcome.ok ["A\taccepts_2025/dora.yaml"] } =
      some ([emptyFileMsg "accepts_2025/dora.yaml"], 1) ∧
    mainRun
      { prTitleEnv := "acceptance-orch2025-dora", prBranchEnv := "dora_accept",
        prAuthorEnv := "dora", baseShaEnv := "", headShaEnv := "",
        fileIsThere := false, parse := ParseOutcome.nullDoc,
        git := GitOutcome.ok ["A\taccepts_2025/dora.yaml"] } =
      some ([fileNotFoundMsg "dora"], 1) := by
  constructor
  · decide
  · decide

end ValidateAcceptance
